import Mathlib

/-!
Verification development for the namsan_dashboard repository
(src/app.py, src/app_v2.py, src/app_final.py).

The aggregation/scoring engine and the sync/provisioning bookkeeping are
shallowly embedded: pandas dataframes become lists of typed records,
dataframe masks become `List.filter`, `pandas.sort_values` (a deterministic
comparison sort; for equal keys we model the order as stable, keeping the
input order) becomes `List.insertionSort`, Python `round` (banker's
rounding) becomes `pyRound`, and float arithmetic is modelled exactly
over `ℚ`.
-/

namespace Namsan

/-- Floor of a rational, computed directly from its reduced fraction
(the denominator is positive, so floor division of the numerator by the
denominator is the floor). -/
def ratFloor (q : ℚ) : ℤ := Int.fdiv q.num q.den

/-- Python's built-in `round` to the nearest integer, ties to even
(banker's rounding), modelled on exact rationals. -/
def pyRound (q : ℚ) : ℤ :=
  let n : ℤ := ratFloor q
  let frac : ℚ := q - (n : ℚ)
  if frac < 1/2 then n
  else if 1/2 < frac then n + 1
  else if n % 2 = 0 then n else n + 1

/-- Python's `round(x, 1)`: round to one decimal place, ties to even. -/
def pyRound1 (q : ℚ) : ℚ := (pyRound (10 * q) : ℚ) / 10

/-- The six 0/1 activity indicators of the activity-table schema:
전체출결 (overall attendance), 대면출결 (in-person attendance),
마이심 (engagement metric), 상시활동 (ongoing activity),
전도 (outreach), 십일조 (tithe). -/
inductive Indicator where
  | overall
  | inPerson
  | mysim
  | ongoing
  | outreach
  | tithe
deriving DecidableEq

/-- The fixed indicator order used by the source
(`indicators = ['전체출결', '대면출결', '마이심', '상시활동', '전도', '십일조']`). -/
def indicatorList : List Indicator :=
  [.overall, .inPerson, .mysim, .ongoing, .outreach, .tithe]

/-- One row of a per-zone activity sheet, as read by app_final.py:
날짜 (period label, e.g. "11월"), 이름, 직분, 상태, and the six 0/1 flags
(coerced to integers by the ingestion layer). -/
structure Row where
  date : String
  name : String
  role : String
  status : String
  overall : ℤ
  inPerson : ℤ
  mysim : ℤ
  ongoing : ℤ
  outreach : ℤ
  tithe : ℤ
deriving DecidableEq

/-- Column access for the six indicator flags of an activity row. -/
def Row.flag (r : Row) : Indicator → ℤ
  | .overall => r.overall
  | .inPerson => r.inPerson
  | .mysim => r.mysim
  | .ongoing => r.ongoing
  | .outreach => r.outreach
  | .tithe => r.tithe

/-- One row of the Record_DB master roster (app_final.py):
이름, 지역, 구역, 직분, 상태. The enrollment date column is never consulted
by the logic modelled here and is omitted. -/
structure Member where
  name : String
  region : String
  zone : String
  role : String
  status : String
deriving DecidableEq

/-- app_final.py `calculate_comprehensive_score` (lines 374-383), also
app_v2.py lines 139-148: fold over the six indicators, adding
`row[ind] * (weights[ind] / 100)` whenever both dictionaries hold the key,
then Python `round(score, 1)`. The dictionaries are modelled as partial
maps `Indicator → Option ℚ`; the `Option` captures the
`if ind in row and ind in weights` membership guard. The function is pure:
it reads but never writes its inputs. -/
def calculate_comprehensive_score (row weights : Indicator → Option ℚ) : ℚ :=
  pyRound1 (indicatorList.foldl (fun score ind =>
    match row ind, weights ind with
    | some r, some w => score + r * (w / 100)
    | _, _ => score) 0)

/-- Modelled from the spec: the same weighted-sum formula with the divisor
exposed as a parameter `d`; the source hard-codes `d = 100`
(app_final.py line 381). Used only to state the scale-invariance claim,
which speaks of scaling the weights and the divisor together. -/
def comprehensive_score_with_divisor (row weights : Indicator → Option ℚ) (d : ℚ) : ℚ :=
  pyRound1 (indicatorList.foldl (fun score ind =>
    match row ind, weights ind with
    | some r, some w => score + r * (w / d)
    | _, _ => score) 0)

/-- The per-indicator rate computed inside app_final.py
`calculate_zone_summary` (lines 351-358):
`active_df[ind].sum() / total_members * 100 if total_members > 0 else 0`. -/
def zoneRate (active_df : List Row) (i : Indicator) : ℚ :=
  if 0 < active_df.length then
    ((active_df.map (fun r => (r.flag i : ℚ))).sum / active_df.length) * 100
  else 0

/-- The derived per-zone monthly summary (the dict returned by
`calculate_zone_summary`): 지역, 구역, 구역장, 재적 and the seven displayed
percentage columns (already passed through Python `round`, hence `ℤ`). -/
structure ZoneSummary where
  region : String
  zone : String
  leader : String
  members : ℕ
  overall : ℤ
  inPerson : ℤ
  mysim : ℤ
  ongoing : ℤ
  outreach : ℤ
  hanja : ℤ
  tithe : ℤ
deriving DecidableEq

/-- Column access for the six indicator-rate columns of a zone summary. -/
def ZoneSummary.rate (s : ZoneSummary) : Indicator → ℤ
  | .overall => s.overall
  | .inPerson => s.inPerson
  | .mysim => s.mysim
  | .ongoing => s.ongoing
  | .outreach => s.outreach
  | .tithe => s.tithe

/-- app_final.py `calculate_zone_summary` (lines 327-372): filter the zone
sheet to the selected month, then to rows whose activity-table 상태 is
"재적"; return `none` on any empty intermediate result; pick the first
active row whose 직분 is 리더/구역장/간사 as the zone head (or "-");
compute the six rates over the active rows and round each with Python
`round`; the 한자율 column is filled from the rounded 전도 (outreach)
rate (line 370). -/
def calculate_zone_summary (zone_df : List Row) (month zone_name region : String) :
    Option ZoneSummary :=
  if zone_df.isEmpty then none
  else
    let month_df := zone_df.filter (fun r => r.date == month)
    if month_df.isEmpty then none
    else
      let active_df := month_df.filter (fun r => r.status == "재적")
      if active_df.isEmpty then none
      else
        let leaders := (active_df.filter (fun r =>
          r.role == "리더" || r.role == "구역장" || r.role == "간사")).map Row.name
        some
          { region := region
            zone := zone_name
            leader := leaders.headD "-"
            members := active_df.length
            overall := pyRound (zoneRate active_df .overall)
            inPerson := pyRound (zoneRate active_df .inPerson)
            mysim := pyRound (zoneRate active_df .mysim)
            ongoing := pyRound (zoneRate active_df .ongoing)
            outreach := pyRound (zoneRate active_df .outreach)
            hanja := pyRound (zoneRate active_df .outreach)
            tithe := pyRound (zoneRate active_df .tithe) }

/-- Digit fold modelling Python `int` applied to a string of decimal
digits. On the well-formed month labels appearing in the sheets ("1월" ..
"12월" with the 월 sign stripped) it agrees with Python `int`; Python
raises on other inputs, where this total model returns the fold value. -/
def parseNat (s : List Char) : ℕ :=
  s.foldl (fun n c => 10 * n + (c.toNat - 48)) 0

/-- The month sort key used throughout app_final.py (lines 255-257,
292-294, 699, 752-754):
`int(x.replace('월', '')) if isinstance(x, str) and '월' in x else 0`. -/
def monthKey (s : String) : ℕ :=
  if s.toList.contains '월' then parseNat (s.toList.filter (fun c => c ≠ '월')) else 0

/-- The characters after the first occurrence of the pattern `pat`
(Python `s.split(pat)[1]` for a pattern occurring exactly once, the shape
of the year-qualified labels this is applied to). -/
def afterSeq (pat : List Char) : List Char → List Char
  | [] => []
  | c :: rest =>
      if pat.isPrefixOf (c :: rest) then (c :: rest).drop pat.length
      else afterSeq pat rest

/-- Python `str.strip()`: drop whitespace from both ends. -/
def trimChars (l : List Char) : List Char :=
  ((l.dropWhile Char.isWhitespace).reverse.dropWhile Char.isWhitespace).reverse

/-- app_final.py lines 191-198: normalise the target month of a
provisioning request, mapping "2024년 11월" and "11월" alike to "11월"
(split on "년 ", strip the 월 sign and whitespace, re-append 월). -/
def normalize_target_month (t : String) : String :=
  let cs := t.toList
  if cs.contains '년' then
    String.mk (trimChars ((afterSeq ['년', ' '] cs).filter (fun c => c ≠ '월'))) ++ "월"
  else if List.isSuffixOf ['월'] cs then t else t ++ "월"

/-- Sorting a zone sheet by period recency, newest first
(app_final.py lines 252-259): pandas `sort_values` on the month key,
descending, modelled as a stable comparison sort. -/
def sortRowsByMonthDesc (l : List Row) : List Row :=
  List.insertionSort (fun a b => monthKey b.date ≤ monthKey a.date) l

/-- A fresh all-zero-flag activity record for one member
(app_final.py lines 230-241 and 306-317). -/
def freshRow (date name role status : String) : Row :=
  { date := date, name := name, role := role, status := status,
    overall := 0, inPerson := 0, mysim := 0, ongoing := 0, outreach := 0, tithe := 0 }

/-- app_final.py `create_monthly_records` (lines 183-265). The spreadsheet
backend is modelled as the map `tables` from zone name to its sheet rows;
the loop over `zones = filtered_df['구역'].unique()` becomes a per-zone
case split (each zone is visited at most once, so the per-zone writes are
independent). For a zone with active filtered members, a fresh zero-flag
row per member is prepended to the existing sheet and the result is
re-sorted by month, newest first. There is no check whether rows for
`target_month` already exist. -/
def create_monthly_records (master : List Member) (target_month region_filter : String)
    (tables : String → List Row) : String → List Row :=
  let date_str := normalize_target_month target_month
  let filtered := if region_filter ≠ "전체" then
      master.filter (fun m => m.region == region_filter)
    else master
  fun z =>
    let zone_members := filtered.filter (fun m => m.zone == z && m.status == "재적")
    if z = "" ∨ z ∉ filtered.map Member.zone ∨ zone_members = [] then tables z
    else
      sortRowsByMonthDesc
        ((zone_members.map (fun m => freshRow date_str m.name m.role m.status)) ++ tables z)

/-- Maximum month key of a sheet, pandas `df['_sort_key'].max()` style:
fold of `max` over the per-row keys, seeded with 0. -/
def maxKey (rows : List Row) : ℕ :=
  (rows.map (fun r => monthKey r.date)).foldl max 0

/-- The 날짜 value of the row selected by `idxmax` on the month sort key
(app_final.py lines 292-295): the first row attaining the maximal key. -/
def latestDate (rows : List Row) : String :=
  match rows.find? (fun r => monthKey r.date == maxKey rows) with
  | some r => r.date
  | none => ""

/-- app_final.py line 284: `old_df.loc[old_df['이름'] == member_name,
'상태'] = '제외'` — set 상태 to "제외" on every row of the sheet whose 이름
matches, leaving all other rows and all other fields untouched. -/
def setExcluded (member_name : String) (l : List Row) : List Row :=
  l.map (fun r => if r.name == member_name then { r with status := "제외" } else r)

/-- The old-zone half of `sync_member_to_zones` (app_final.py lines
281-285): when an old zone is given (truthy) and differs from the new
zone and its sheet is non-empty, mark the member excluded there. -/
def sync_exclude_old (member_name new_zone : String) (old_zone : Option String)
    (tables : String → List Row) : String → List Row :=
  fun z =>
    match old_zone with
    | some oz =>
        if oz ≠ "" ∧ oz ≠ new_zone ∧ z = oz ∧ tables oz ≠ [] then
          setExcluded member_name (tables oz)
        else tables z
    | none => tables z

/-- app_final.py `sync_member_to_zones` (lines 271-325). The member is
looked up in the master roster first (`iloc[0]`; when absent the raised
exception is caught before any sheet was written, so nothing changes).
Then the old zone marks the member excluded, and the new zone — when its
sheet is non-empty — appends one fresh "재적" zero-flag record for the
member in its most recent period, but only if no row for that member and
period exists there yet. -/
def sync_member_to_zones (master : List Member) (member_name new_zone : String)
    (old_zone : Option String) (tables : String → List Row) : String → List Row :=
  match master.find? (fun m => m.name == member_name) with
  | none => tables
  | some member_info =>
    let tables1 := sync_exclude_old member_name new_zone old_zone tables
    let new_df := tables1 new_zone
    if new_df.isEmpty then tables1
    else
      let latest := latestDate new_df
      if (new_df.filter (fun r => r.date == latest && r.name == member_name)).isEmpty then
        fun z =>
          if z = new_zone then new_df ++ [freshRow latest member_name member_info.role "재적"]
          else tables1 z
      else tables1

/-- A summary row of the scoreboard dataframe after the 종합지표 column was
added (app_final.py lines 476-479 and app_v2.py lines 349-352). -/
structure ScoredRow where
  summary : ZoneSummary
  score : ℚ
deriving DecidableEq

/-- The comparison used by `summary_df.sort_values('종합지표',
ascending=False)`: composite score, descending. -/
def scoreDesc (a b : ScoredRow) : Prop := b.score ≤ a.score

instance : DecidableRel scoreDesc := fun a b => inferInstanceAs (Decidable (b.score ≤ a.score))

instance : IsTotal ScoredRow scoreDesc := ⟨fun a b => le_total b.score a.score⟩

instance : IsTrans ScoredRow scoreDesc := ⟨fun _ _ _ hab hbc => le_trans hbc hab⟩

/-- app_final.py line 482 / app_v2.py line 355: sort the summary rows by
composite score, descending; pandas `sort_values` modelled as a stable
comparison sort (equal scores keep their input order). -/
def sort_by_score (l : List ScoredRow) : List ScoredRow :=
  List.insertionSort scoreDesc l

/-- The ranking step (app_final.py lines 481-483 / app_v2.py lines
354-356): sort by score descending, then assign
`순위 = range(1, len(summary_df) + 1)` positionally. -/
def rank_zones (l : List ScoredRow) : List (ScoredRow × ℕ) :=
  (sort_by_score l).zip (List.range' 1 l.length)

/-- The per-region roll-up of one indicator column over the zone summaries
of a region: pandas `mean` of the zone-level rates — app_v2.py lines
262-271 (`groupby('지역').agg(... 'mean')`) and app_final.py lines 512-518
(`region_df[col].mean()`); the subsequent `round(1)` / `int(...)` in both
variants is display formatting. -/
def region_rollup (region_df : List ZoneSummary) (i : Indicator) : ℚ :=
  ((region_df.map (fun s => (s.rate i : ℚ))).sum) / region_df.length

/-- The spec's phrase "the arithmetic mean", written out: sum over count. -/
def arith_mean (xs : List ℚ) : ℚ := xs.sum / xs.length

/-- Modelled from the spec: the member-count-weighted mean of the zone
rates, which the spec says the roll-up must NOT equal — stated only as the
comparison target of the region roll-up claim. -/
def member_weighted_rollup (region_df : List ZoneSummary) (i : Indicator) : ℚ :=
  ((region_df.map (fun s => (s.members : ℚ) * (s.rate i : ℚ))).sum)
    / ((region_df.map (fun s => (s.members : ℚ))).sum)

/-- A calendar date as parsed by app.py (`pd.to_datetime`, format
`%Y-%m-%d`). -/
structure Date where
  y : ℕ
  m : ℕ
  d : ℕ
deriving DecidableEq

/-- Chronological sort key of a date. -/
def dateKey (d : Date) : ℕ := d.y * 10000 + d.m * 100 + d.d

/-- Zero-padded two-digit rendering of a month, as `%m` does. -/
def pad2 (n : ℕ) : String := if n < 10 then "0" ++ toString n else toString n

/-- `strftime('%Y년 %m월')` as used by app.py lines 135 and 145. -/
def yearMonthLabel (d : Date) : String :=
  toString d.y ++ "년 " ++ pad2 d.m ++ "월"

/-- `strftime('%Y-%m-%d')` as used by app.py line 520. -/
def dateStr (d : Date) : String :=
  toString d.y ++ "-" ++ pad2 d.m ++ "-" ++ pad2 d.d

/-- One row of the flat Record_DB table of app.py: parsed 날짜, 이름, 지역,
구역, 직분, 상태 and the six integer-coerced indicator flags. -/
structure ARow where
  date : Date
  name : String
  region : String
  zone : String
  role : String
  status : String
  overall : ℤ
  inPerson : ℤ
  mysim : ℤ
  ongoing : ℤ
  outreach : ℤ
  tithe : ℤ
deriving DecidableEq

/-- app.py `filter_data` (lines 139-156): narrow by month label
(`strftime('%Y년 %m월') == month` when a month is selected), then by
region and zone unless "전체" (all) is chosen. -/
def filter_data (df : List ARow) (month region zone : String) : List ARow :=
  let f1 := if month ≠ "" then df.filter (fun r => yearMonthLabel r.date == month) else df
  let f2 := if region ≠ "전체" then f1.filter (fun r => r.region == region) else f1
  if zone ≠ "전체" then f2.filter (fun r => r.zone == zone) else f2

/-- app.py `calculate_attendance_rate` (lines 164-173): 0 for an empty
frame, 0 when there are no "재적" rows, otherwise
`active_df['전체출결'].sum() / len(active_df) * 100`. -/
def calculate_attendance_rate (df : List ARow) : ℚ :=
  if df.isEmpty then 0
  else
    let active_df := df.filter (fun r => r.status == "재적")
    if active_df.length = 0 then 0
    else ((active_df.map (fun r => (r.overall : ℚ))).sum / active_df.length) * 100

/-- app.py `render_missing_sheep` (lines 496-528), data part: from the
dataframe it receives, take the "재적" rows with 전체출결 = 0; annotate
each with the date of that person's most recent 전체출결 = 1 row found in
the SAME dataframe (`person_history = df[...]`, line 515), sorted by 날짜
descending, or "기록 없음" when none is found there. -/
def render_missing_sheep (df : List ARow) : List (String × String) :=
  let active_df := df.filter (fun r => r.status == "재적")
  let missing := active_df.filter (fun r => r.overall == 0)
  missing.map (fun row =>
    let person_history := List.insertionSort (fun a b => dateKey b.date ≤ dateKey a.date)
      (df.filter (fun r => r.name == row.name && r.overall == 1))
    (row.name,
      match person_history.head? with
      | some r => dateStr r.date
      | none => "기록 없음"))

/-- The missing-members list as actually produced by app.py `main`
(lines 654 and 690): `render_missing_sheep(filtered_df)` — the history
annotation therefore only ever sees the filtered window. -/
def missing_sheep_view (df : List ARow) (month region zone : String) :
    List (String × String) :=
  render_missing_sheep (filter_data df month region zone)

/-- Concrete indicator rates of one summary row, used to instantiate the
composite-score theorems. -/
def exR : Indicator → ℚ
  | .overall => 100
  | .inPerson => 50
  | .mysim => 0
  | .ongoing => 0
  | .outreach => 100
  | .tithe => 0

/-- Concrete weights (percentages summing to 100), used to instantiate
the composite-score theorems. -/
def exW : Indicator → ℚ
  | .overall => 30
  | .inPerson => 20
  | .mysim => 10
  | .ongoing => 10
  | .outreach => 20
  | .tithe => 10

/-- `exR` packaged as a total dictionary. -/
def exRowFn : Indicator → Option ℚ := fun i => some (exR i)

/-- `exW` packaged as a total dictionary. -/
def exWFn : Indicator → Option ℚ := fun i => some (exW i)

/-- Two scoreboard rows with equal composite scores whose zone labels are
in the reverse of ascending order: input order 2구역 before 1구역. -/
def cRowA : ScoredRow := ⟨⟨"도원", "2구역", "-", 3, 50, 50, 50, 50, 50, 50, 50⟩, 50⟩

/-- Tie partner of `cRowA` with the alphabetically smaller zone label. -/
def cRowB : ScoredRow := ⟨⟨"도원", "1구역", "-", 4, 50, 50, 50, 50, 50, 50, 50⟩, 50⟩

/-- Three scoreboard rows with distinct scores, for instantiating the
ranking theorem. -/
def wRankList : List ScoredRow :=
  [⟨⟨"도원", "1구역", "-", 4, 80, 80, 80, 80, 80, 80, 80⟩, 80⟩,
   ⟨⟨"도원", "2구역", "-", 3, 95, 95, 95, 95, 95, 95, 95⟩, 95⟩,
   ⟨⟨"새신", "5구역", "-", 5, 20, 20, 20, 20, 20, 20, 20⟩, 20⟩]

/-- A master roster whose zone 3구역 has exactly four active members, the
concrete case named by the spec for provisioning idempotence. -/
def exMaster3 : List Member :=
  [⟨"갑", "도원", "3구역", "청년", "재적"⟩,
   ⟨"을", "도원", "3구역", "청년", "재적"⟩,
   ⟨"병", "도원", "3구역", "청년", "재적"⟩,
   ⟨"정", "도원", "3구역", "리더", "재적"⟩]

/-- A backend with no zone sheets yet. -/
def emptyTables : String → List Row := fun _ => []

/-- One provisioning run of 11월 over `exMaster3`. -/
def provisionOnce : String → List Row :=
  create_monthly_records exMaster3 "11월" "전체" emptyTables

/-- A second, identical provisioning run on top of the first. -/
def provisionTwice : String → List Row :=
  create_monthly_records exMaster3 "11월" "전체" provisionOnce

/-- A region with zones of unequal size (1 member at rate 100, 3 members
at rate 0), where the unweighted and the member-weighted mean differ. -/
def exRegion4 : List ZoneSummary :=
  [⟨"도원", "1구역", "-", 1, 100, 100, 100, 100, 100, 100, 100⟩,
   ⟨"도원", "2구역", "-", 3, 0, 0, 0, 0, 0, 0, 0⟩]

/-- A flat record set with two active rows and one flag 0, instantiating
the rate-bounds theorem. -/
def exADf5 : List ARow :=
  [⟨⟨2024, 11, 3⟩, "갑", "도원", "1구역", "청년", "재적", 1, 0, 0, 0, 0, 0⟩,
   ⟨⟨2024, 11, 3⟩, "을", "도원", "1구역", "청년", "재적", 0, 0, 0, 0, 0, 0⟩,
   ⟨⟨2024, 11, 3⟩, "병", "도원", "1구역", "청년", "제외", 1, 0, 0, 0, 0, 0⟩]

/-- A zone sheet with one active month row, instantiating the zone-rate
bounds. -/
def exRows5 : List Row :=
  [⟨"11월", "갑", "청년", "재적", 1, 1, 0, 0, 1, 0⟩,
   ⟨"11월", "을", "청년", "재적", 0, 0, 0, 0, 1, 0⟩]

/-- Master roster for the zone-reassignment theorems: 김철수 has been
moved to 2구역. -/
def exMaster6 : List Member := [⟨"김철수", "도원", "2구역", "청년", "재적"⟩]

/-- Backend for the reassignment-append theorem: the new zone 2구역 has
months 11월 and 10월 with no record of 김철수; the old zone 1구역 holds
his history. -/
def exTables6 : String → List Row := fun z =>
  if z = "2구역" then
    [⟨"11월", "이영희", "리더", "재적", 1, 0, 0, 0, 0, 0⟩,
     ⟨"10월", "이영희", "리더", "재적", 1, 0, 0, 0, 0, 0⟩]
  else if z = "1구역" then
    [⟨"11월", "김철수", "청년", "재적", 0, 0, 0, 0, 0, 0⟩,
     ⟨"10월", "김철수", "청년", "재적", 1, 0, 0, 0, 0, 0⟩]
  else []

/-- The master row of 김철수 found by the roster lookup. -/
def exInfo6 : Member := ⟨"김철수", "도원", "2구역", "청년", "재적"⟩

/-- Master roster for the old-zone exclusion claim. -/
def exMaster7 : List Member := [⟨"김철수", "도원", "2구역", "청년", "재적"⟩]

/-- Backend for the old-zone exclusion claim: 1구역 holds two periods of
김철수 (most recent 11월, earlier 10월) and one row of another member. -/
def exTables7 : String → List Row := fun z =>
  if z = "1구역" then
    [⟨"11월", "김철수", "청년", "재적", 0, 0, 0, 0, 0, 0⟩,
     ⟨"10월", "김철수", "청년", "재적", 1, 0, 0, 0, 0, 0⟩,
     ⟨"10월", "이영희", "리더", "재적", 1, 0, 0, 0, 0, 0⟩]
  else []

/-- Record_DB content for the missing-members claim: 김철수 attended in
October 2024 (전체출결 = 1) but not in November 2024. -/
def exDf8 : List ARow :=
  [⟨⟨2024, 10, 6⟩, "김철수", "도원", "1구역", "청년", "재적", 1, 0, 0, 0, 0, 0⟩,
   ⟨⟨2024, 11, 3⟩, "김철수", "도원", "1구역", "청년", "재적", 0, 0, 0, 0, 0, 0⟩]

/-- A zone sheet with a single active member whose 전도 flag is set,
instantiating the 한자율 claim. -/
def exZdf10 : List Row :=
  [⟨"11월", "홍길동", "청년", "재적", 1, 0, 0, 0, 1, 0⟩]

/-- The summary computed from `exZdf10` for 11월. -/
def exSummary10 : ZoneSummary := ⟨"도원", "1구역", "-", 1, 100, 0, 0, 0, 100, 100, 0⟩

lemma ratFloor_intCast (n : ℤ) : ratFloor (n : ℚ) = n := by
  simp [ratFloor, Rat.num_intCast, Rat.den_intCast]

lemma pyRound_intCast (n : ℤ) : pyRound (n : ℚ) = n := by
  simp [pyRound, ratFloor_intCast]

lemma foldl_score_scale (row weights weights' : Indicator → Option ℚ) (c : ℚ) (hc : c ≠ 0)
    (hw : ∀ i, weights' i = (weights i).map (fun w => c * w))
    (l : List Indicator) : ∀ init : ℚ,
    l.foldl (fun score ind =>
      match row ind, weights' ind with
      | some r, some w => score + r * (w / (c * 100))
      | _, _ => score) init
    = l.foldl (fun score ind =>
      match row ind, weights ind with
      | some r, some w => score + r * (w / 100)
      | _, _ => score) init := by
  induction l with
  | nil => intro init; rfl
  | cons ind l ih =>
    intro init
    rw [List.foldl_cons, List.foldl_cons]
    have hstep : (match row ind, weights' ind with
        | some r, some w => init + r * (w / (c * 100))
        | _, _ => init)
        = (match row ind, weights ind with
        | some r, some w => init + r * (w / 100)
        | _, _ => init) := by
      rw [hw ind]
      cases row ind with
      | none => cases weights ind <;> rfl
      | some r =>
        cases weights ind with
        | none => rfl
        | some w =>
          simp only [Option.map_some']
          rw [mul_div_mul_left w 100 hc]
    rw [hstep]
    exact ih _

/-- C1. `calculate_comprehensive_score` on a summary row and a weight
dictionary that both contain all six indicators returns exactly
`round(Σ rate_i · weight_i / 100, 1)`. In this pure embedding the
function is a mathematical function of its two arguments, so it is
deterministic (stable) and cannot mutate them. -/
theorem comprehensive_score_formula (row weights : Indicator → Option ℚ)
    (r w : Indicator → ℚ)
    (hr : ∀ i, row i = some (r i)) (hw : ∀ i, weights i = some (w i)) :
    calculate_comprehensive_score row weights
      = pyRound1 ((indicatorList.map (fun i => r i * w i / 100)).sum) := by
  unfold calculate_comprehensive_score
  congr 1
  simp only [indicatorList, List.foldl_cons, List.foldl_nil, List.map_cons, List.map_nil,
    List.sum_cons, List.sum_nil, hr, hw]
  ring

/-- Witness for C1: the formula at the concrete row `exR` and weights
`exW`. -/
theorem comprehensive_score_formula_witness :
    calculate_comprehensive_score exRowFn exWFn
      = pyRound1 ((indicatorList.map (fun i => exR i * exW i / 100)).sum) :=
  comprehensive_score_formula exRowFn exWFn exR exW (fun _ => rfl) (fun _ => rfl)

/-- C9. Scale invariance of the composite score: multiplying every weight
by a non-zero factor `c` while multiplying the divisor 100 by the same
factor reproduces exactly the score of `calculate_comprehensive_score`,
which itself is the divisor-100 instance of the explicit-divisor
formula. -/
theorem comprehensive_score_scale_invariance (row weights : Indicator → Option ℚ)
    (c : ℚ) (hc : c ≠ 0) :
    comprehensive_score_with_divisor row (fun i => (weights i).map (fun w => c * w)) (c * 100)
      = calculate_comprehensive_score row weights
  ∧ calculate_comprehensive_score row weights
      = comprehensive_score_with_divisor row weights 100 := by
  constructor
  · unfold comprehensive_score_with_divisor calculate_comprehensive_score
    congr 1
    exact foldl_score_scale row weights (fun i => (weights i).map (fun w => c * w)) c hc
      (fun _ => rfl) indicatorList 0
  · rfl

/-- Witness for C9: doubling all weights and replacing the divisor 100 by
200 reproduces the score at the concrete row and weights. -/
theorem comprehensive_score_scale_invariance_witness :
    comprehensive_score_with_divisor exRowFn (fun i => (exWFn i).map (fun w => 2 * w)) (2 * 100)
      = calculate_comprehensive_score exRowFn exWFn :=
  (comprehensive_score_scale_invariance exRowFn exWFn 2 (by norm_num)).1

/-- C10. Every summary the engine produces carries 한자율 equal to the
전도 (outreach) rate: both fields are filled from the same rounded
outreach indicator, so the two displayed columns can never differ. -/
theorem hanja_copies_outreach (zone_df : List Row) (month zone_name region : String)
    (s : ZoneSummary)
    (h : calculate_zone_summary zone_df month zone_name region = some s) :
    s.hanja = s.outreach := by
  unfold calculate_zone_summary at h
  dsimp only at h
  split at h
  · exact absurd h (by simp)
  · split at h
    · exact absurd h (by simp)
    · split at h
      · exact absurd h (by simp)
      · obtain rfl := Option.some_injective _ h.symm
        rfl

lemma exZdf10_summary :
    calculate_zone_summary exZdf10 "11월" "1구역" "도원" = some exSummary10 := by
  have h100 : pyRound (100 : ℚ) = 100 := by
    have := pyRound_intCast 100
    norm_num at this
    exact this
  have h0 : pyRound (0 : ℚ) = 0 := by
    have := pyRound_intCast 0
    norm_num at this
    exact this
  simp [calculate_zone_summary, exZdf10, exSummary10, zoneRate, Row.flag]
  norm_num [h100, h0]

/-- Witness for C10: the summary of `exZdf10` has 한자율 100, equal to its
전도 rate. -/
theorem hanja_copies_outreach_witness : exSummary10.hanja = exSummary10.outreach :=
  hanja_copies_outreach exZdf10 "11월" "1구역" "도원" exSummary10 exZdf10_summary

/-- C4. The per-region roll-up of an indicator depends only on the list
of zone-level rates — member counts play no role, every zone counts
equally — and it is exactly the arithmetic mean of those rates; on the
concrete region `exRegion4` with zones of unequal size it differs from
the member-count-weighted mean (50 versus 25). -/
theorem region_rollup_unweighted_mean :
    (∀ (l₁ l₂ : List ZoneSummary) (i : Indicator),
      l₁.map (fun s => s.rate i) = l₂.map (fun s => s.rate i) →
      region_rollup l₁ i = region_rollup l₂ i)
  ∧ (∀ (l : List ZoneSummary) (i : Indicator),
      region_rollup l i = arith_mean (l.map (fun s => (s.rate i : ℚ))))
  ∧ region_rollup exRegion4 .overall = 50
  ∧ member_weighted_rollup exRegion4 .overall = 25
  ∧ region_rollup exRegion4 .overall ≠ member_weighted_rollup exRegion4 .overall := by
  have hmean : ∀ (l : List ZoneSummary) (i : Indicator),
      region_rollup l i = arith_mean (l.map (fun s => (s.rate i : ℚ))) := by
    intro l i
    simp [region_rollup, arith_mean]
  have h50 : region_rollup exRegion4 .overall = 50 := by
    norm_num [region_rollup, exRegion4, ZoneSummary.rate]
  have h25 : member_weighted_rollup exRegion4 .overall = 25 := by
    norm_num [member_weighted_rollup, exRegion4, ZoneSummary.rate]
  refine ⟨?_, hmean, h50, h25, ?_⟩
  · intro l₁ l₂ i hrates
    have hcast : l₁.map (fun s => ((s.rate i : ℤ) : ℚ)) = l₂.map (fun s => ((s.rate i : ℤ) : ℚ)) := by
      have := congrArg (List.map (fun n : ℤ => (n : ℚ))) hrates
      simpa [List.map_map, Function.comp] using this
    have hlen : l₁.length = l₂.length := by
      have := congrArg List.length hrates
      simpa using this
    simp [region_rollup, hcast, hlen]
  · rw [h50, h25]
    norm_num

/-- Witness for C4: the general conjuncts applied at the concrete region
`exRegion4` and the overall-attendance indicator. -/
theorem region_rollup_unweighted_mean_witness :
    region_rollup exRegion4 .overall
      = arith_mean (exRegion4.map (fun s => (s.rate .overall : ℚ)))
  ∧ region_rollup exRegion4 .overall ≠ member_weighted_rollup exRegion4 .overall :=
  ⟨region_rollup_unweighted_mean.2.1 exRegion4 .overall,
   region_rollup_unweighted_mean.2.2.2.2⟩

lemma sum_flags_bounds (l : List ℚ) (h : ∀ x ∈ l, x = 0 ∨ x = 1) :
    0 ≤ l.sum ∧ l.sum ≤ (l.length : ℚ) := by
  induction l with
  | nil => simp
  | cons a l ih =>
    have ha := h a (List.mem_cons_self a l)
    obtain ⟨h1, h2⟩ := ih (fun x hx => h x (List.mem_cons_of_mem a hx))
    simp only [List.sum_cons, List.length_cons]
    push_cast
    constructor
    · rcases ha with ha | ha <;> rw [ha] <;> linarith
    · rcases ha with ha | ha <;> rw [ha] <;> linarith

lemma rate_of_flags_bounds (xs : List ℚ) (hx : ∀ x ∈ xs, x = 0 ∨ x = 1)
    (hn : 0 < xs.length) :
    0 ≤ (xs.sum / xs.length) * 100 ∧ (xs.sum / xs.length) * 100 ≤ 100 := by
  obtain ⟨h1, h2⟩ := sum_flags_bounds xs hx
  have hn' : (0 : ℚ) < xs.length := by exact_mod_cast hn
  constructor
  · exact mul_nonneg (div_nonneg h1 hn'.le) (by norm_num)
  · have hle : xs.sum / xs.length ≤ 1 := (div_le_one hn').mpr h2
    linarith

/-- C5. With 0/1 indicator flags, every rate produced by the aggregation
functions lies in `[0, 100]`, and when the active-member count is 0 the
rate is exactly 0 (the zero-denominator case is guarded, never a NaN or
an exception): stated for app.py `calculate_attendance_rate` and for the
zone-summary rate of app_final.py. -/
theorem rate_bounds (df : List ARow)
    (hdf : ∀ r ∈ df, r.overall = 0 ∨ r.overall = 1) :
    (0 ≤ calculate_attendance_rate df ∧ calculate_attendance_rate df ≤ 100
      ∧ ((df.filter (fun r => r.status == "재적")).length = 0 →
          calculate_attendance_rate df = 0))
  ∧ ∀ (rows : List Row) (i : Indicator),
      (∀ r ∈ rows, r.flag i = 0 ∨ r.flag i = 1) →
      (0 ≤ zoneRate rows i ∧ zoneRate rows i ≤ 100
        ∧ (rows.length = 0 → zoneRate rows i = 0)) := by
  constructor
  · unfold calculate_attendance_rate
    dsimp only
    split
    · exact ⟨le_refl 0, by norm_num, fun _ => rfl⟩
    · split
      case isTrue hz => exact ⟨le_refl 0, by norm_num, fun _ => rfl⟩
      case isFalse hz =>
        have hflags : ∀ x ∈ (df.filter (fun r => r.status == "재적")).map
            (fun r => (r.overall : ℚ)), x = 0 ∨ x = 1 := by
          intro x hx
          obtain ⟨r, hr, rfl⟩ := List.mem_map.mp hx
          rcases hdf r (List.mem_of_mem_filter hr) with h | h <;>
            [left; right] <;> rw [h] <;> norm_num
        have hn : 0 < ((df.filter (fun r => r.status == "재적")).map
            (fun r => (r.overall : ℚ))).length := by
          rw [List.length_map]
          omega
        obtain ⟨hlo, hhi⟩ := rate_of_flags_bounds _ hflags hn
        rw [List.length_map] at hlo hhi
        exact ⟨hlo, hhi, fun hc => absurd hc hz⟩
  · intro rows i hflags
    unfold zoneRate
    split
    case isTrue hpos =>
      have hflags' : ∀ x ∈ rows.map (fun r => (r.flag i : ℚ)), x = 0 ∨ x = 1 := by
        intro x hx
        obtain ⟨r, hr, rfl⟩ := List.mem_map.mp hx
        rcases hflags r hr with h | h <;> [left; right] <;> rw [h] <;> norm_num
      have hn : 0 < (rows.map (fun r => (r.flag i : ℚ))).length := by
        rw [List.length_map]
        exact hpos
      obtain ⟨hlo, hhi⟩ := rate_of_flags_bounds _ hflags' hn
      rw [List.length_map] at hlo hhi
      exact ⟨hlo, hhi, fun hc => by omega⟩
    case isFalse hpos =>
      exact ⟨le_refl 0, by norm_num, fun _ => rfl⟩

/-- Witness for C5: the bounds at the concrete record sets `exADf5` and
`exRows5`. -/
theorem rate_bounds_witness :
    (0 ≤ calculate_attendance_rate exADf5 ∧ calculate_attendance_rate exADf5 ≤ 100)
  ∧ (0 ≤ zoneRate exRows5 .outreach ∧ zoneRate exRows5 .outreach ≤ 100) := by
  have h := rate_bounds exADf5 (by decide)
  have h2 := h.2 exRows5 .outreach (by decide)
  exact ⟨⟨h.1.1, h.1.2.1⟩, ⟨h2.1, h2.2.1⟩⟩

/-- Counterexample for C2. The ranking step applies no zone-label
tie-break: on two rows with equal composite scores whose zone labels are
in descending order (2구역 before 1구역 in the input), the output keeps
the input order 2구역, 1구역 — not the label-ascending order 1구역, 2구역
the claim asserts. -/
theorem rank_zones_tiebreak_counterexample :
    cRowA.score = cRowB.score
  ∧ cRowB.summary.zone.toList < cRowA.summary.zone.toList
  ∧ (rank_zones [cRowA, cRowB]).map (fun p => p.1.summary.zone) = ["2구역", "1구역"]
  ∧ (rank_zones [cRowA, cRowB]).map (fun p => p.1.summary.zone) ≠ ["1구역", "2구역"] := by
  have h3 : (rank_zones [cRowA, cRowB]).map (fun p => p.1.summary.zone)
      = ["2구역", "1구역"] := by
    simp [rank_zones, sort_by_score, List.insertionSort, List.orderedInsert, scoreDesc,
      cRowA, cRowB, List.range']
  refine ⟨rfl, by decide, h3, ?_⟩
  rw [h3]
  decide

/-- C2 (amended: the code has no zone-label tie-break — pandas
`sort_values` is used with no secondary key, so ties keep an
unspecified order, modelled here as the input order). For every
non-empty summary list, the ranking step returns the rows sorted by
composite score descending, a permutation of its input; the assigned
ranks are exactly the sequence 1..N (a permutation of 1..N with no gaps
or duplicates); and re-ranking the already-ranked rows changes
nothing. -/
theorem rank_zones_ranking_spec (l : List ScoredRow) (_hl : l ≠ []) :
    ((rank_zones l).map Prod.fst).Perm l
  ∧ List.Sorted scoreDesc ((rank_zones l).map Prod.fst)
  ∧ (rank_zones l).map Prod.snd = List.range' 1 l.length
  ∧ rank_zones ((rank_zones l).map Prod.fst) = rank_zones l := by
  have hlen : (sort_by_score l).length = l.length := List.length_insertionSort scoreDesc l
  have hfst : (rank_zones l).map Prod.fst = sort_by_score l := by
    unfold rank_zones
    apply List.map_fst_zip
    rw [hlen, List.length_range']
  have hsorted : List.Sorted scoreDesc (sort_by_score l) :=
    List.sorted_insertionSort scoreDesc l
  refine ⟨?_, ?_, ?_, ?_⟩
  · rw [hfst]
    exact List.perm_insertionSort scoreDesc l
  · rw [hfst]
    exact hsorted
  · unfold rank_zones
    apply List.map_snd_zip
    rw [hlen, List.length_range']
  · rw [hfst]
    unfold rank_zones
    rw [show sort_by_score (sort_by_score l) = sort_by_score l from
      hsorted.insertionSort_eq, hlen]

/-- Witness for C2: the ranks assigned over the three-row list
`wRankList` are exactly 1, 2, 3, and re-ranking its ranked rows changes
nothing. -/
theorem rank_zones_ranking_spec_witness :
    (rank_zones wRankList).map Prod.snd = List.range' 1 wRankList.length
  ∧ rank_zones ((rank_zones wRankList).map Prod.fst) = rank_zones wRankList :=
  ⟨(rank_zones_ranking_spec wRankList (List.cons_ne_nil _ _)).2.2.1,
   (rank_zones_ranking_spec wRankList (List.cons_ne_nil _ _)).2.2.2⟩

/-- C3 evaluation. Provisioning 11월 over a roster whose zone 3구역 has
exactly four active members: one run leaves 4 rows for 11월, but the
identical second run prepends another fresh block with no existence
check, leaving 8 rows — not the 4 the claim requires of an idempotent
second run. -/
theorem create_monthly_records_duplicates :
    (exMaster3.filter (fun m => m.zone == "3구역" && m.status == "재적")).length = 4
  ∧ ((provisionOnce "3구역").filter (fun r => r.date == "11월")).length = 4
  ∧ ((provisionTwice "3구역").filter (fun r => r.date == "11월")).length = 8 := by
  decide

/-- C8 evaluation. 김철수 attended in October 2024 but not in November
2024 (`exDf8` is the full history). The view as wired in app.py `main`
passes the month-filtered frame to `render_missing_sheep`, so the
annotation search never sees October and reports "기록 없음"; running the
same annotation over the full history would find 2024-10-06. -/
theorem missing_sheep_filtered_window :
    missing_sheep_view exDf8 "2024년 11월" "전체" "전체" = [("김철수", "기록 없음")]
  ∧ render_missing_sheep exDf8 = [("김철수", "2024-10-06")] := by
  decide

lemma sync_exclude_old_new_zone (member_name new_zone : String) (old_zone : Option String)
    (tables : String → List Row) :
    sync_exclude_old member_name new_zone old_zone tables new_zone = tables new_zone := by
  unfold sync_exclude_old
  cases old_zone with
  | none => rfl
  | some oz =>
    dsimp only
    split
    next h => exact absurd h.2.2.1.symm h.2.1
    next => rfl

lemma foldl_max_eq_max (a : ℕ) (ks : List ℕ) :
    ks.foldl max a = max a (ks.foldl max 0) := by
  induction ks generalizing a with
  | nil => simp
  | cons k ks ih =>
    rw [List.foldl_cons, List.foldl_cons, ih (max a k), ih (max 0 k)]
    omega

lemma maxKey_cons (r : Row) (l : List Row) :
    maxKey (r :: l) = max (monthKey r.date) (maxKey l) := by
  unfold maxKey
  rw [List.map_cons, List.foldl_cons, foldl_max_eq_max]
  omega

lemma maxKey_attained (l : List Row) (hne : l ≠ []) :
    ∃ r ∈ l, monthKey r.date = maxKey l := by
  induction l with
  | nil => exact absurd rfl hne
  | cons r l ih =>
    cases l with
    | nil =>
      refine ⟨r, List.mem_singleton_self r, ?_⟩
      unfold maxKey
      simp
    | cons r2 l2 =>
      obtain ⟨r0, hr0, hk⟩ := ih (by simp)
      rw [maxKey_cons]
      by_cases hc : maxKey (r2 :: l2) ≤ monthKey r.date
      · exact ⟨r, List.mem_cons_self r _, by omega⟩
      · exact ⟨r0, List.mem_cons_of_mem r hr0, by omega⟩

lemma find?_maxKey_some (l : List Row) (hne : l ≠ []) :
    ∃ r0, l.find? (fun r => monthKey r.date == maxKey l) = some r0 := by
  obtain ⟨r0, hmem, hk⟩ := maxKey_attained l hne
  have hs : (l.find? (fun r => monthKey r.date == maxKey l)).isSome := by
    rw [List.find?_isSome]
    exact ⟨r0, hmem, by simp [hk]⟩
  exact Option.isSome_iff_exists.mp hs

lemma monthKey_latestDate (l : List Row) (hne : l ≠ []) :
    monthKey (latestDate l) = maxKey l := by
  obtain ⟨r0, hfind⟩ := find?_maxKey_some l hne
  unfold latestDate
  rw [hfind]
  have hp := List.find?_some hfind
  simpa using hp

lemma latestDate_append (l : List Row) (hne : l ≠ []) (r : Row)
    (hk : monthKey r.date = maxKey l) :
    latestDate (l ++ [r]) = latestDate l := by
  have hmax : maxKey (l ++ [r]) = maxKey l := by
    unfold maxKey at hk ⊢
    rw [List.map_append, List.foldl_append, List.map_singleton, List.foldl_cons,
      List.foldl_nil, hk]
    omega
  unfold latestDate
  rw [hmax, List.find?_append]
  obtain ⟨r0, hfind⟩ := find?_maxKey_some l hne
  rw [hfind]
  rfl

lemma sync_new_zone_eval (master : List Member) (member_name new_zone : String)
    (old_zone : Option String) (tables : String → List Row) (info : Member)
    (hfind : master.find? (fun m => m.name == member_name) = some info) :
    sync_member_to_zones master member_name new_zone old_zone tables new_zone
      = if (tables new_zone).isEmpty then tables new_zone
        else if ((tables new_zone).filter (fun r =>
            r.date == latestDate (tables new_zone) && r.name == member_name)).isEmpty then
          tables new_zone
            ++ [freshRow (latestDate (tables new_zone)) member_name info.role "재적"]
        else tables new_zone := by
  unfold sync_member_to_zones
  rw [hfind]
  dsimp only
  simp only [apply_ite (fun f : String → List Row => f new_zone),
    sync_exclude_old_new_zone, eq_self_iff_true, if_true]

/-- C6. Reassigning a member into a new zone whose sheet is non-empty,
when that sheet holds no record for the member in its most recent
period: the sync appends exactly one fresh all-zero-flag "재적" record
for the member in that period; running the sync a second time with the
same arguments changes the new zone's sheet no further; and afterwards
the sheet holds exactly one active record for the member in the current
period. -/
theorem sync_appends_once (master : List Member) (member_name new_zone : String)
    (old_zone : Option String) (tables : String → List Row) (info : Member)
    (hfind : master.find? (fun m => m.name == member_name) = some info)
    (hne : tables new_zone ≠ [])
    (hnew : (tables new_zone).filter (fun r =>
      r.date == latestDate (tables new_zone) && r.name == member_name) = []) :
    sync_member_to_zones master member_name new_zone old_zone tables new_zone
      = tables new_zone
        ++ [freshRow (latestDate (tables new_zone)) member_name info.role "재적"]
  ∧ sync_member_to_zones master member_name new_zone old_zone
      (sync_member_to_zones master member_name new_zone old_zone tables) new_zone
      = sync_member_to_zones master member_name new_zone old_zone tables new_zone
  ∧ ((sync_member_to_zones master member_name new_zone old_zone tables new_zone).filter
      (fun r => r.name == member_name
        && r.date == latestDate (tables new_zone) && r.status == "재적")).length = 1 := by
  have hie : ¬((tables new_zone).isEmpty = true) := by
    simpa [List.isEmpty_iff] using hne
  have hfe : ((tables new_zone).filter (fun r =>
      r.date == latestDate (tables new_zone) && r.name == member_name)).isEmpty = true := by
    rw [hnew]
    rfl
  have hout : sync_member_to_zones master member_name new_zone old_zone tables new_zone
      = tables new_zone
        ++ [freshRow (latestDate (tables new_zone)) member_name info.role "재적"] := by
    rw [sync_new_zone_eval master member_name new_zone old_zone tables info hfind,
      if_neg hie, if_pos hfe]
  refine ⟨hout, ?_, ?_⟩
  · have hlat : latestDate
        (sync_member_to_zones master member_name new_zone old_zone tables new_zone)
        = latestDate (tables new_zone) := by
      rw [hout]
      exact latestDate_append (tables new_zone) hne _ (monthKey_latestDate (tables new_zone) hne)
    have hne2 : ¬((sync_member_to_zones master member_name new_zone old_zone tables
        new_zone).isEmpty = true) := by
      rw [hout]
      simp
    have hfilter2 : ¬(((sync_member_to_zones master member_name new_zone old_zone tables
        new_zone).filter (fun r =>
          r.date == latestDate (sync_member_to_zones master member_name new_zone old_zone
            tables new_zone) && r.name == member_name)).isEmpty = true) := by
      rw [hlat, hout, List.filter_append, hnew]
      simp [freshRow]
    rw [sync_new_zone_eval master member_name new_zone old_zone
      (sync_member_to_zones master member_name new_zone old_zone tables) info hfind,
      if_neg hne2, if_neg hfilter2]
  · rw [hout, List.filter_append]
    have hA : (tables new_zone).filter (fun r => r.name == member_name
        && r.date == latestDate (tables new_zone) && r.status == "재적") = [] := by
      rw [List.filter_eq_nil_iff]
      intro a ha
      have h2 := List.filter_eq_nil_iff.mp hnew a ha
      simp only [Bool.and_eq_true, beq_iff_eq] at h2 ⊢
      tauto
    rw [hA]
    simp [freshRow]

/-- Witness for C6: the sync of 김철수 into 2구역 over the concrete
backend `exTables6` appends exactly his fresh 11월 record. -/
theorem sync_appends_once_witness :
    sync_member_to_zones exMaster6 "김철수" "2구역" (some "1구역") exTables6 "2구역"
      = exTables6 "2구역"
        ++ [freshRow (latestDate (exTables6 "2구역")) "김철수" exInfo6.role "재적"] :=
  (sync_appends_once exMaster6 "김철수" "2구역" (some "1구역") exTables6 exInfo6
    (by decide) (by decide) (by decide)).1

/-- Counterexample for C7. In `exTables7` the most recent period of
1구역 is 11월, and the row at index 1 is 김철수's EARLIER record (10월,
status 재적). After the reassignment sync, that earlier-period row has
status 제외 as well — the code overwrites the status of every row of the
member, not only the most recent one, so the claim that earlier-period
records are left unchanged is false. -/
theorem sync_excludes_earlier_periods :
    latestDate (exTables7 "1구역") = "11월"
  ∧ ((exTables7 "1구역")[1]?).map Row.date = some "10월"
  ∧ ((exTables7 "1구역")[1]?).map Row.name = some "김철수"
  ∧ ((exTables7 "1구역")[1]?).map Row.status = some "재적"
  ∧ (((sync_member_to_zones exMaster7 "김철수" "2구역" (some "1구역") exTables7)
      "1구역")[1]?).map Row.status = some "제외" := by
  decide

lemma sync_old_zone_eval (master : List Member) (member_name new_zone oz : String)
    (tables : String → List Row) (info : Member)
    (hfind : master.find? (fun m => m.name == member_name) = some info)
    (hoz1 : oz ≠ "") (hoz2 : oz ≠ new_zone) (hne : tables oz ≠ []) :
    sync_member_to_zones master member_name new_zone (some oz) tables oz
      = setExcluded member_name (tables oz) := by
  have htab1 : sync_exclude_old member_name new_zone (some oz) tables oz
      = setExcluded member_name (tables oz) := by
    unfold sync_exclude_old
    dsimp only
    rw [if_pos ⟨hoz1, hoz2, rfl, hne⟩]
  unfold sync_member_to_zones
  rw [hfind]
  dsimp only
  simp only [apply_ite (fun f : String → List Row => f oz), hoz2, ite_false, if_false,
    htab1, ite_self]

/-- C7 (amended: the sync sets status 제외 on EVERY record of the member
in the old zone's sheet — all periods, not only the most recent one).
Frame conditions of the old-zone update: the sheet keeps its length (no
row deleted), every row of another member is bit-for-bit unchanged, and
every row of the moved member keeps all its fields except the status,
which becomes 제외. -/
theorem sync_exclude_frame (master : List Member) (member_name new_zone oz : String)
    (tables : String → List Row) (info : Member)
    (hfind : master.find? (fun m => m.name == member_name) = some info)
    (hoz1 : oz ≠ "") (hoz2 : oz ≠ new_zone) (hne : tables oz ≠ []) :
    ((sync_member_to_zones master member_name new_zone (some oz) tables) oz).length
      = (tables oz).length
  ∧ (∀ (i : ℕ) (r : Row), (tables oz)[i]? = some r → r.name ≠ member_name →
      ((sync_member_to_zones master member_name new_zone (some oz) tables) oz)[i]? = some r)
  ∧ (∀ (i : ℕ) (r : Row), (tables oz)[i]? = some r → r.name = member_name →
      ((sync_member_to_zones master member_name new_zone (some oz) tables) oz)[i]?
        = some { r with status := "제외" }) := by
  have hout := sync_old_zone_eval master member_name new_zone oz tables info hfind hoz1 hoz2 hne
  refine ⟨?_, ?_, ?_⟩
  · rw [hout]
    simp [setExcluded]
  · intro i r hi hname
    rw [hout]
    simp [setExcluded, List.getElem?_map, hi, hname]
  · intro i r hi hname
    rw [hout]
    simp [setExcluded, List.getElem?_map, hi, hname]

/-- Witness for C7's amended theorem: over the concrete backend
`exTables7` the old-zone sheet keeps its three rows, and the row of the
other member 이영희 is unchanged. -/
theorem sync_exclude_frame_witness :
    ((sync_member_to_zones exMaster7 "김철수" "2구역" (some "1구역") exTables7) "1구역").length
      = (exTables7 "1구역").length
  ∧ ((sync_member_to_zones exMaster7 "김철수" "2구역" (some "1구역") exTables7) "1구역")[2]?
      = some ⟨"10월", "이영희", "리더", "재적", 1, 0, 0, 0, 0, 0⟩ :=
  ⟨(sync_exclude_frame exMaster7 "김철수" "2구역" "1구역" exTables7
      ⟨"김철수", "도원", "2구역", "청년", "재적"⟩
      (by decide) (by decide) (by decide) (by decide)).1,
   (sync_exclude_frame exMaster7 "김철수" "2구역" "1구역" exTables7
      ⟨"김철수", "도원", "2구역", "청년", "재적"⟩
      (by decide) (by decide) (by decide) (by decide)).2.1 2
      ⟨"10월", "이영희", "리더", "재적", 1, 0, 0, 0, 0, 0⟩ (by decide) (by decide)⟩

end Namsan
